import Mathlib

/-!
Verification of the file-descriptor operation facade of `rustix`
(`src/fs/fd.rs`, `src/io/fd.rs`, `src/io/read_write.rs`).

The facade functions in the source delegate to backend syscall
implementations (`imp::syscalls::*`) that live outside the sources at
hand; where the behaviour of a backend operation is needed it is
modelled from the specification, and the model's doc comment says so.
The logic of `_is_file_read_write` is embedded directly from the
source.
-/

namespace Rustix

/-! ## Open-flag constants

The `OFlags` bit constants are provided by the platform backend.  We
use the Linux-family values, which are the values in force on every
target where the `O_PATH` short-circuit of `_is_file_read_write` is
compiled in. -/

/-- Access mode: open for reading only (`O_RDONLY`). -/
def O_RDONLY : Nat := 0

/-- Access mode: open for writing only (`O_WRONLY`). -/
def O_WRONLY : Nat := 1

/-- Access mode: open for reading and writing (`O_RDWR`). -/
def O_RDWR : Nat := 2

/-- Path-only descriptor flag (`O_PATH`), Linux-family value `0o10000000`. -/
def O_PATH : Nat := 2097152

/-- Mask of the access-mode-only bits (`RDONLY | WRONLY | RDWR`), which
the source uses instead of `ACCMODE` because `ACCMODE` may include the
`O_PATH` bit on some platforms. -/
def RWMODE : Nat := O_RDONLY ||| O_WRONLY ||| O_RDWR

/-- Outcome of `_is_file_read_write`: an ordinary success pair, an
ordinary portable error (`io::Result` error), or the fatal
`unreachable!()` assertion failure, which is a panic and not an
ordinary error value. -/
inductive RwResult where
  | ok (readable : Bool) (writable : Bool)
  | err (e : Nat)
  | fatal
  deriving DecidableEq, Repr

/-- Embedding of `_is_file_read_write` from `src/fs/fd.rs`.

`getfl` is the outcome of the backend flag query `fcntl_getfl(fd)`
(an external collaborator), with the flag set represented as its raw
bit value.  `pathCheckCompiled` records whether the `cfg`-gated
`O_PATH` check (android/fuchsia/linux/emscripten targets) is compiled
in.  The `?` operator of the source becomes the `.error` branch; the
`match mode & RWMODE` of the source becomes the equality tests, in the
source's order `RDONLY`, `RDWR`, `WRONLY`, and the `_ => unreachable!()`
arm becomes `.fatal`. -/
def is_file_read_write (pathCheckCompiled : Bool) (getfl : Except Nat Nat) : RwResult :=
  match getfl with
  | .error e => .err e
  | .ok mode =>
    if pathCheckCompiled ∧ mode &&& O_PATH = O_PATH then
      .ok false false
    else
      let m := mode &&& RWMODE
      if m = O_RDONLY then .ok true false
      else if m = O_RDWR then .ok true true
      else if m = O_WRONLY then .ok false true
      else .fatal

/-- C1: for every descriptor on which the flag query succeeds,
`is_file_read_write` returns `(true, false)` when the descriptor was
opened read-only, `(false, true)` when opened write-only,
`(true, true)` when opened read-write, and `(false, false)` when
opened path-only regardless of the nominal access bits: the path-only
check short-circuits before the access-mode bits are consulted. -/
theorem c1_access_mode_pairs (mode : Nat) :
    (mode &&& O_PATH = O_PATH →
      is_file_read_write true (.ok mode) = .ok false false) ∧
    (mode &&& O_PATH ≠ O_PATH →
      (mode &&& RWMODE = O_RDONLY →
        is_file_read_write true (.ok mode) = .ok true false) ∧
      (mode &&& RWMODE = O_WRONLY →
        is_file_read_write true (.ok mode) = .ok false true) ∧
      (mode &&& RWMODE = O_RDWR →
        is_file_read_write true (.ok mode) = .ok true true)) := by
  refine ⟨fun hp => ?_, fun hp => ⟨fun hm => ?_, fun hm => ?_, fun hm => ?_⟩⟩
  · simp [is_file_read_write, hp]
  · simp [is_file_read_write, hp, hm, O_RDONLY, O_WRONLY, O_RDWR]
  · simp [is_file_read_write, hp, hm, O_RDONLY, O_WRONLY, O_RDWR]
  · simp [is_file_read_write, hp, hm, O_RDONLY, O_WRONLY, O_RDWR]

/-- Witness for C1 at concrete modes: a path-only descriptor whose
nominal access bits claim read-write still yields `(false, false)`,
and a plain read-only descriptor yields `(true, false)`. -/
theorem c1_access_mode_pairs_witness :
    is_file_read_write true (.ok (O_PATH ||| O_RDWR)) = .ok false false ∧
    is_file_read_write true (.ok O_RDONLY) = .ok true false :=
  ⟨(c1_access_mode_pairs (O_PATH ||| O_RDWR)).1 (by decide),
   ((c1_access_mode_pairs O_RDONLY).2 (by decide)).1 (by decide)⟩

/-- C5 counterexample: at the successfully queried flag value
`O_PATH ||| 3` the masked access-mode value `3` is none of read-only,
write-only or read-write — the platform violates the precondition —
yet the function does not signal the fatal assertion: the path-only
short-circuit fires first and returns the ordinary value
`(false, false)`. -/
theorem c5_fatal_counterexample :
    (O_PATH ||| 3) &&& RWMODE ≠ O_RDONLY ∧
    (O_PATH ||| 3) &&& RWMODE ≠ O_WRONLY ∧
    (O_PATH ||| 3) &&& RWMODE ≠ O_RDWR ∧
    is_file_read_write true (.ok (O_PATH ||| 3)) = .ok false false ∧
    is_file_read_write true (.ok (O_PATH ||| 3)) ≠ .fatal := by
  refine ⟨by decide, by decide, by decide, by decide, by decide⟩

/-- C5 (amended): provided the path-only short-circuit does not fire
(the `O_PATH` bit of the queried value is clear), if the masked
access-mode value is one of read-only, write-only or read-write then
the final fallthrough branch is unreachable, and if the platform
violates that precondition the function signals the fatal assertion
failure (`unreachable!()`), never an ordinary error value. -/
theorem c5_fatal_on_contract_violation (mode : Nat)
    (hp : mode &&& O_PATH ≠ O_PATH) :
    ((mode &&& RWMODE = O_RDONLY ∨ mode &&& RWMODE = O_WRONLY ∨
        mode &&& RWMODE = O_RDWR) →
      is_file_read_write true (.ok mode) ≠ .fatal) ∧
    ((mode &&& RWMODE ≠ O_RDONLY ∧ mode &&& RWMODE ≠ O_WRONLY ∧
        mode &&& RWMODE ≠ O_RDWR) →
      is_file_read_write true (.ok mode) = .fatal ∧
        ∀ e, is_file_read_write true (.ok mode) ≠ .err e) := by
  constructor
  · rintro (hm | hm | hm) <;>
      simp [is_file_read_write, hp, hm, O_RDONLY, O_WRONLY, O_RDWR]
  · rintro ⟨h0, h1, h2⟩
    simp only [O_RDONLY, O_WRONLY, O_RDWR] at h0 h1 h2
    refine ⟨?_, ?_⟩ <;>
      simp [is_file_read_write, hp, h0, h1, h2, O_RDONLY, O_WRONLY, O_RDWR]

/-- Witness for the amended C5 at the concrete flag value `3`
(masked access mode `3`, `O_PATH` clear): the fatal assertion fires. -/
theorem c5_fatal_on_contract_violation_witness :
    is_file_read_write true (.ok 3) = .fatal :=
  ((c5_fatal_on_contract_violation 3 (by decide)).2
    ⟨by decide, by decide, by decide⟩).1

/-- C9: when the path-only check is not compiled in (every build
target outside the android/fuchsia/linux/emscripten family), a
successful `is_file_read_write` call never returns `(false, false)`. -/
theorem c9_no_path_check_never_false_false (getfl : Except Nat Nat) :
    is_file_read_write false getfl ≠ .ok false false := by
  match getfl with
  | .error e => simp [is_file_read_write]
  | .ok mode =>
    simp only [is_file_read_write]
    split
    · simp_all
    · split
      · simp
      · split
        · simp
        · split <;> simp

/-- C10: `is_file_read_write` returns an ordinary error if and only if
the underlying `fcntl_getfl` flag query returns an error, and in that
case it propagates exactly that error value (the `?` operator). -/
theorem c10_error_iff_getfl_error (pathCheckCompiled : Bool)
    (getfl : Except Nat Nat) (e : Nat) :
    is_file_read_write pathCheckCompiled getfl = .err e ↔
      getfl = .error e := by
  match getfl with
  | .error e' => simp [is_file_read_write]
  | .ok mode =>
    simp only [is_file_read_write]
    constructor
    · intro h
      exfalso
      revert h
      split
      · simp
      · split
        · simp
        · split
          · simp
          · split <;> simp
    · intro h
      exact absurd h (by simp)

/-! ## Positioning and data-transfer operations

The facade functions `seek`, `tell`, `read`, `write` and their
positioned/vectored variants delegate to backend syscall
implementations that are not among the sources at hand, so the
backend behaviour is modelled from the specification on an explicit
descriptor state. -/

/-- Descriptor state seen by one open file description: the file's
byte contents and the shared current position. -/
structure FdState where
  data : List Nat
  pos : Nat
  deriving DecidableEq, Repr

/-- Position specification for `seek` (`std::io::SeekFrom`): an origin
(absolute start, relative-to-current, relative-to-end) and a delta. -/
inductive SeekFrom where
  | start (offset : Nat)
  | current (delta : Int)
  | fromEnd (delta : Int)
  deriving DecidableEq, Repr

/-- The portable `EINVAL` error value. -/
def EINVAL : Nat := 22

/-- The portable `EBADF` error value. -/
def EBADF : Nat := 9

/-- Modelled from the spec: the backend `lseek` operation invoked by
the facade's `seek` (`imp::syscalls::seek`, absent from the sources at
hand).  It repositions the file offset according to the origin and
signed delta, returning the resulting absolute offset, or an error if
the offset would be negative (§4.1). -/
def seek (s : FdState) (whence : SeekFrom) : Except Nat (Nat × FdState) :=
  match whence with
  | .start o => .ok (o, { s with pos := o })
  | .current d =>
    let target : Int := (s.pos : Int) + d
    if target < 0 then .error EINVAL
    else .ok (target.toNat, { s with pos := target.toNat })
  | .fromEnd d =>
    let target : Int := (s.data.length : Int) + d
    if target < 0 then .error EINVAL
    else .ok (target.toNat, { s with pos := target.toNat })

/-- Modelled from the spec: `tell` is defined as `seek` with a zero
relative-to-current delta (`lseek(fd, 0, SEEK_CUR)`), a read-only
convenience (§4.1; `imp::syscalls::tell` is absent from the sources at
hand). -/
def tell (s : FdState) : Except Nat (Nat × FdState) :=
  seek s (.current 0)

/-- The position value a `tell` call reports, with the resulting state
projected away. -/
def tellValue (s : FdState) : Except Nat Nat :=
  (tell s).map Prod.fst

/-- Every `tell` call succeeds with the current position and leaves
the descriptor state unchanged. -/
theorem tell_eq_ok (s : FdState) : tell s = .ok (s.pos, s) := by
  simp [tell, seek]

/-- C2: `tell` returns exactly the value `seek` with a zero
relative-to-current delta returns, and mutates no state: two
consecutive `tell` calls return the same value. -/
theorem c2_tell_is_readonly_seek (s : FdState) :
    tell s = seek s (SeekFrom.current 0) ∧
    tell s = .ok (s.pos, s) ∧
    ∀ n s', tell s = .ok (n, s') → s' = s ∧ tell s' = .ok (n, s') := by
  refine ⟨rfl, tell_eq_ok s, fun n s' h => ?_⟩
  rw [tell_eq_ok s] at h
  obtain ⟨h1, h2⟩ := by simpa using h
  subst h2
  exact ⟨rfl, by rw [tell_eq_ok s, h1]⟩

/-- Witness for C2 at a concrete descriptor state: two consecutive
`tell` calls both report position `1` and change nothing. -/
theorem c2_tell_is_readonly_seek_witness :
    tell ⟨[5, 6, 7], 1⟩ = .ok (1, ⟨[5, 6, 7], 1⟩) :=
  ((c2_tell_is_readonly_seek ⟨[5, 6, 7], 1⟩).2.2 1 ⟨[5, 6, 7], 1⟩
    ((c2_tell_is_readonly_seek ⟨[5, 6, 7], 1⟩).2.1)).2

/-- Modelled from the spec: the backend `read` operation
(`imp::syscalls::read`, absent from the sources at hand).  A single
transfer attempt into a buffer of length `bufLen`: it moves
`min bufLen available` bytes, advances the shared position by that
count, and returns the count as a success — a short transfer (fewer
bytes than requested, here because end of file is near) is an
ordinary success value, never an error (§4.7, §7). -/
def read (s : FdState) (bufLen : Nat) : Except Nat (Nat × FdState) :=
  let n := min bufLen (s.data.length - s.pos)
  .ok (n, { s with pos := s.pos + n })

/-- Byte contents after writing `buf` into `data` at absolute offset
`off`: bytes before `off` kept, a zero gap if `off` is past the end,
then `buf`, then the remaining tail. -/
def writeAt (data : List Nat) (off : Nat) (buf : List Nat) : List Nat :=
  data.take off ++ List.replicate (off - data.length) 0 ++ buf ++
    data.drop (off + buf.length)

/-- Modelled from the spec: the backend `write` operation
(`imp::syscalls::write`, absent from the sources at hand).  A single
transfer attempt from `buf` at the shared position: it stores the
bytes, advances the position by the transferred count, and returns
that count as a success (§4.7). -/
def write (s : FdState) (buf : List Nat) : Except Nat (Nat × FdState) :=
  .ok (buf.length, { data := writeAt s.data s.pos buf, pos := s.pos + buf.length })

/-- Modelled from the spec: the backend `pread` operation
(`imp::syscalls::pread`, absent from the sources at hand).  The
transfer happens at the explicit absolute offset `off` and the
descriptor state — in particular the shared current position — is
left untouched (§4.7). -/
def pread (s : FdState) (bufLen : Nat) (off : Nat) : Except Nat (Nat × FdState) :=
  let n := min bufLen (s.data.length - off)
  .ok (n, s)

/-- Modelled from the spec: the backend `pwrite` operation
(`imp::syscalls::pwrite`, absent from the sources at hand).  The
bytes are stored at the explicit absolute offset `off`; the shared
current position is not altered (§4.7). -/
def pwrite (s : FdState) (buf : List Nat) (off : Nat) : Except Nat (Nat × FdState) :=
  .ok (buf.length, { data := writeAt s.data off buf, pos := s.pos })

/-- Modelled from the spec: the backend `readv` operation
(`imp::syscalls::readv`, absent from the sources at hand).  It
scatters across the buffers in order, so it behaves as one read of
the aggregate length, and the returned count is the aggregate across
all buffers touched (§4.7). -/
def readv (s : FdState) (bufLens : List Nat) : Except Nat (Nat × FdState) :=
  read s bufLens.sum

/-- Modelled from the spec: the backend `writev` operation
(`imp::syscalls::writev`, absent from the sources at hand).  It
gathers the buffers in order, behaving as one write of their
concatenation (§4.7). -/
def writev (s : FdState) (bufs : List (List Nat)) : Except Nat (Nat × FdState) :=
  write s bufs.flatten

/-- Modelled from the spec: the backend `preadv` operation
(`imp::syscalls::preadv`, absent from the sources at hand): vectored
read at an explicit absolute offset, position untouched (§4.7). -/
def preadv (s : FdState) (bufLens : List Nat) (off : Nat) : Except Nat (Nat × FdState) :=
  pread s bufLens.sum off

/-- Modelled from the spec: the backend `pwritev` operation
(`imp::syscalls::pwritev`, absent from the sources at hand): vectored
write at an explicit absolute offset, position untouched (§4.7). -/
def pwritev (s : FdState) (bufs : List (List Nat)) (off : Nat) : Except Nat (Nat × FdState) :=
  pwrite s bufs.flatten off

/-- C3: each of the eight data-transfer operations returns `Ok n`
with `n` the number of bytes actually transferred whenever the single
transfer attempt succeeds, with `n` at most the requested length; a
short transfer is returned as a success, never as an error value.
For the sequential operations the transferred count is visible as the
exact advance of the shared position; the final clause exhibits a
short read (1 byte of 5 requested) returned as `Ok 1`. -/
theorem c3_short_transfers_are_successes :
    (∀ s len, ∃ n s', read s len = .ok (n, s') ∧ n ≤ len ∧
      s'.pos = s.pos + n) ∧
    (∀ s (buf : List Nat), ∃ n s', write s buf = .ok (n, s') ∧
      n = buf.length ∧ s'.pos = s.pos + n) ∧
    (∀ s len off, ∃ n s', pread s len off = .ok (n, s') ∧ n ≤ len) ∧
    (∀ s (buf : List Nat) off, ∃ n s', pwrite s buf off = .ok (n, s') ∧
      n = buf.length) ∧
    (∀ s (lens : List Nat), ∃ n s', readv s lens = .ok (n, s') ∧
      n ≤ lens.sum ∧ s'.pos = s.pos + n) ∧
    (∀ s (bufs : List (List Nat)), ∃ n s', writev s bufs = .ok (n, s') ∧
      n = bufs.flatten.length) ∧
    (∀ s (lens : List Nat) off, ∃ n s', preadv s lens off = .ok (n, s') ∧
      n ≤ lens.sum) ∧
    (∀ s (bufs : List (List Nat)) off, ∃ n s', pwritev s bufs off = .ok (n, s') ∧
      n = bufs.flatten.length) ∧
    read ⟨[9], 0⟩ 5 = .ok (1, ⟨[9], 1⟩) := by
  refine ⟨?_, ?_, ?_, ?_, ?_, ?_, ?_, ?_, rfl⟩
  · exact fun s len => ⟨_, _, rfl, Nat.min_le_left _ _, rfl⟩
  · exact fun s buf => ⟨_, _, rfl, rfl, rfl⟩
  · exact fun s len off => ⟨_, _, rfl, Nat.min_le_left _ _⟩
  · exact fun s buf off => ⟨_, _, rfl, rfl⟩
  · exact fun s lens => ⟨_, _, rfl, Nat.min_le_left _ _, rfl⟩
  · exact fun s bufs => ⟨_, _, rfl, rfl⟩
  · exact fun s lens off => ⟨_, _, rfl, Nat.min_le_left _ _⟩
  · exact fun s bufs off => ⟨_, _, rfl, rfl⟩

/-- C4: `pread` and `pwrite` leave the descriptor's current position
unchanged — `tell` after the positioned call reports exactly the
value it would have reported before it. -/
theorem c4_positioned_ops_preserve_position (s : FdState) (len off : Nat)
    (buf : List Nat) :
    (∀ n s', pread s len off = .ok (n, s') →
      s'.pos = s.pos ∧ tellValue s' = tellValue s) ∧
    (∀ n s', pwrite s buf off = .ok (n, s') →
      s'.pos = s.pos ∧ tellValue s' = tellValue s) := by
  constructor
  · intro n s' h
    obtain ⟨-, h2⟩ : n = _ ∧ s' = s := by simpa [pread] using h.symm
    subst h2
    exact ⟨rfl, rfl⟩
  · intro n s' h
    obtain ⟨-, h2⟩ : n = _ ∧ s' = _ := by simpa [pwrite] using h.symm
    subst h2
    simp [tellValue, tell_eq_ok, Except.map]

/-- Witness for C4 at a concrete state: a `pwrite` of two bytes at
offset 0 leaves the reported position at `1`. -/
theorem c4_positioned_ops_preserve_position_witness :
    (FdState.mk (writeAt [5, 6, 7] 0 [8, 9]) 1).pos = (FdState.mk [5, 6, 7] 1).pos ∧
    tellValue (FdState.mk (writeAt [5, 6, 7] 0 [8, 9]) 1) =
      tellValue (FdState.mk [5, 6, 7] 1) :=
  (c4_positioned_ops_preserve_position ⟨[5, 6, 7], 1⟩ 0 0 [8, 9]).2 2
    ⟨writeAt [5, 6, 7] 0 [8, 9], 1⟩ rfl

/-! ## Duplication

The facade's `dup` and `dup2` (`src/io/fd.rs`) delegate to backend
implementations absent from the sources at hand; the descriptor-table
semantics is modelled from the specification (§4.5).  Ownership is
reflected in the model: a slot present in the table is an open
descriptor; `dup` hands the caller a freshly allocated slot (sole
owner of a new descriptor), `dup2` consumes the target slot it is
given and returns it repointed, and the borrowed source slot is left
exactly as it was. -/

/-- Descriptor table: an association of descriptor slots to open file
description identities.  The head-most binding of a slot is the live
one. -/
structure FdTable where
  entries : List (Nat × Nat)
  deriving DecidableEq, Repr

/-- The open file description a slot currently refers to, if any. -/
def FdTable.resolve (t : FdTable) (fd : Nat) : Option Nat :=
  (t.entries.find? (fun e => e.1 == fd)).map Prod.snd

/-- The slots bound in the table. -/
def FdTable.slots (t : FdTable) : List Nat :=
  t.entries.map Prod.fst

/-- A slot number strictly larger than every bound slot, hence fresh. -/
def FdTable.freshSlot (t : FdTable) : Nat :=
  t.slots.foldr max 0 + 1

/-- Modelled from the spec: the backend `dup` operation
(`imp::syscalls::dup`, absent from the sources at hand).  It produces
a new owned descriptor in a fresh slot referring to the same open
file description as the borrowed source, which is left untouched
(§4.5). -/
def dup (t : FdTable) (src : Nat) : Except Nat (Nat × FdTable) :=
  match t.resolve src with
  | none => .error EBADF
  | some desc => .ok (t.freshSlot, ⟨(t.freshSlot, desc) :: t.entries⟩)

/-- Modelled from the spec: the backend `dup2` operation
(`imp::syscalls::dup2`, absent from the sources at hand).  The target
slot — handed over by value, `new.into_fd()` in the facade — is made
to refer to the source's open file description, whatever it
previously referenced is closed (its old binding is removed), and the
repointed target slot is returned to the caller as the fresh owned
result (§4.5).  `flags` is the `DupFlags` argument, carried but not
interpreted by the model. -/
def dup2 (t : FdTable) (src : Nat) (tgt : Nat) (flags : Nat) :
    Except Nat (Nat × FdTable) :=
  match t.resolve src with
  | none => .error EBADF
  | some desc =>
    .ok (tgt, ⟨(tgt, desc) :: t.entries.filter (fun e => !(e.1 == tgt))⟩)

/-- Every bound slot is at most the running maximum of the slots. -/
theorem mem_le_foldr_max (l : List Nat) (x : Nat) (hx : x ∈ l) :
    x ≤ l.foldr max 0 := by
  induction l with
  | nil => cases hx
  | cons hd tl ih =>
    rcases List.mem_cons.mp hx with h | h
    · exact h ▸ Nat.le_max_left _ _
    · exact le_trans (ih h) (Nat.le_max_right _ _)

/-- The fresh slot is not bound in the table. -/
theorem freshSlot_not_mem (t : FdTable) : t.freshSlot ∉ t.slots := by
  intro hmem
  have h := mem_le_foldr_max t.slots _ hmem
  unfold FdTable.freshSlot at h
  omega

/-- Resolving the slot just bound at the head of the table yields the
new binding. -/
theorem resolve_cons_eq (l : List (Nat × Nat)) (fd d : Nat) :
    FdTable.resolve ⟨(fd, d) :: l⟩ fd = some d := by
  simp [FdTable.resolve, List.find?_cons]

/-- Resolving any other slot skips the head binding. -/
theorem resolve_cons_ne (l : List (Nat × Nat)) (a fd d : Nat) (h : a ≠ fd) :
    FdTable.resolve ⟨(a, d) :: l⟩ fd = FdTable.resolve ⟨l⟩ fd := by
  have hb : (a == fd) = false := by simpa using h
  simp [FdTable.resolve, List.find?_cons, hb]

/-- A slot that resolves is bound in the table. -/
theorem resolve_mem (t : FdTable) (fd d : Nat)
    (h : t.resolve fd = some d) : fd ∈ t.slots := by
  unfold FdTable.resolve at h
  obtain ⟨a, ha, -⟩ := Option.map_eq_some'.mp h
  have h1 : a.1 = fd := by simpa using List.find?_some ha
  have h2 := List.mem_of_find?_eq_some ha
  exact h1 ▸ List.mem_map_of_mem Prod.fst h2

/-- Finding a slot other than `tgt` is unaffected by dropping the
bindings of `tgt`. -/
theorem find?_filter_ne (l : List (Nat × Nat)) (src tgt : Nat)
    (h : src ≠ tgt) :
    (l.filter (fun e => !(e.1 == tgt))).find? (fun e => e.1 == src) =
      l.find? (fun e => e.1 == src) := by
  induction l with
  | nil => rfl
  | cons hd tl ih =>
    by_cases hhd : hd.1 = tgt
    · have h1 : (!(hd.1 == tgt)) = false := by simp [hhd]
      have h2 : (hd.1 == src) = false := by
        simp only [hhd, beq_eq_false_iff_ne]
        exact Ne.symm h
      simp [List.filter_cons, List.find?_cons, h1, h2, ih]
    · have h1 : (!(hd.1 == tgt)) = true := by simp [hhd]
      simp only [List.filter_cons, h1, if_true, List.find?_cons]
      cases hsrc : hd.1 == src
      · simpa [hsrc] using ih
      · simp [hsrc]

/-- C6: on success `dup` returns a handle over a freshly allocated
slot — no prior binding exists, so the caller is its sole owner — that
resolves to the source's open file description, with the borrowed
source binding unchanged; on success `dup2` returns a handle over
exactly the consumed target slot, repointed to the source's open file
description (its previous referent is closed), again with the
borrowed source binding unchanged. -/
theorem c6_dup_dup2_ownership (t : FdTable) (src tgt flags : Nat) :
    (∀ fd t', dup t src = .ok (fd, t') →
      fd ∉ t.slots ∧ t'.resolve fd = t.resolve src ∧
        t'.resolve src = t.resolve src) ∧
    (∀ fd t', dup2 t src tgt flags = .ok (fd, t') →
      fd = tgt ∧ t'.resolve tgt = t.resolve src ∧
        (src ≠ tgt → t'.resolve src = t.resolve src)) := by
  constructor
  · intro fd t' h
    match hres : t.resolve src with
    | none => simp [dup, hres] at h
    | some desc =>
      obtain ⟨h1, h2⟩ : t.freshSlot = fd ∧
          FdTable.mk ((t.freshSlot, desc) :: t.entries) = t' := by
        simpa [dup, hres] using h
      subst h1
      subst h2
      have hfresh := freshSlot_not_mem t
      refine ⟨hfresh, ?_, ?_⟩
      · rw [resolve_cons_eq]
      · have hsm : src ∈ t.slots := resolve_mem t src desc hres
        have hne : t.freshSlot ≠ src := fun hc => hfresh (hc ▸ hsm)
        rw [resolve_cons_ne _ _ _ _ hne]
        exact hres
  · intro fd t' h
    match hres : t.resolve src with
    | none => simp [dup2, hres] at h
    | some desc =>
      obtain ⟨h1, h2⟩ : tgt = fd ∧
          FdTable.mk ((tgt, desc) ::
            t.entries.filter (fun e => !(e.1 == tgt))) = t' := by
        simpa [dup2, hres] using h
      subst h1
      subst h2
      refine ⟨rfl, ?_, fun hne => ?_⟩
      · rw [resolve_cons_eq]
      · rw [resolve_cons_ne _ _ _ _ (Ne.symm hne)]
        unfold FdTable.resolve
        rw [find?_filter_ne t.entries src tgt hne]
        exact hres

/-- Witness for C6 on a concrete two-slot table: duplicating slot `0`
allocates fresh slot `2`, and `dup2` from slot `0` onto slot `1`
repoints slot `1` to description `10`. -/
theorem c6_dup_dup2_ownership_witness :
    (2 ∉ FdTable.slots ⟨[(0, 10), (1, 11)]⟩ ∧
      FdTable.resolve ⟨[(2, 10), (0, 10), (1, 11)]⟩ 2 =
        FdTable.resolve ⟨[(0, 10), (1, 11)]⟩ 0 ∧
      FdTable.resolve ⟨[(2, 10), (0, 10), (1, 11)]⟩ 0 =
        FdTable.resolve ⟨[(0, 10), (1, 11)]⟩ 0) ∧
    (1 = 1 ∧
      FdTable.resolve ⟨[(1, 10), (0, 10)]⟩ 1 =
        FdTable.resolve ⟨[(0, 10), (1, 11)]⟩ 0 ∧
      (0 ≠ 1 → FdTable.resolve ⟨[(1, 10), (0, 10)]⟩ 0 =
        FdTable.resolve ⟨[(0, 10), (1, 11)]⟩ 0)) :=
  ⟨(c6_dup_dup2_ownership ⟨[(0, 10), (1, 11)]⟩ 0 1 0).1 2
      ⟨[(2, 10), (0, 10), (1, 11)]⟩ rfl,
   (c6_dup_dup2_ownership ⟨[(0, 10), (1, 11)]⟩ 0 1 0).2 1
      ⟨[(1, 10), (0, 10)]⟩ rfl⟩

/-! ## Build-time availability of the flagged positioned-vectored
variants

`preadv2` and `pwritev2` in `src/io/read_write.rs` are guarded by
`cfg(any(linux_raw, all(libc, target_pointer_width = "64",
target_os = "linux", target_env = "gnu")))`.  We model the build
target and settle whether the two functions are present in the
compiled interface. -/

/-- The two alternative low-level invocation strategies. -/
inductive Backend where
  | linuxRaw
  | libc
  deriving DecidableEq, Repr

/-- Operating-system family of a build target. -/
inductive TargetOs where
  | linux
  | android
  | fuchsia
  | emscripten
  | macos
  | netbsd
  | openbsd
  | redox
  | wasi
  | other
  deriving DecidableEq, Repr

/-- C environment of a build target. -/
inductive TargetEnv where
  | gnu
  | musl
  | other
  deriving DecidableEq, Repr

/-- A build target: backend strategy, OS family, C environment and
pointer width. -/
structure Target where
  backend : Backend
  os : TargetOs
  env : TargetEnv
  pointerWidth : Nat
  deriving DecidableEq, Repr

/-- The `cfg` guard on `preadv2` in `src/io/read_write.rs`:
`any(linux_raw, all(libc, target_pointer_width = "64",
target_os = "linux", target_env = "gnu"))`. -/
def preadv2Compiled (t : Target) : Bool :=
  t.backend == Backend.linuxRaw ||
    (t.backend == Backend.libc && t.pointerWidth == 64 &&
      t.os == TargetOs.linux && t.env == TargetEnv.gnu)

/-- The `cfg` guard on `pwritev2` in `src/io/read_write.rs`, written
out separately because the source repeats it. -/
def pwritev2Compiled (t : Target) : Bool :=
  t.backend == Backend.linuxRaw ||
    (t.backend == Backend.libc && t.pointerWidth == 64 &&
      t.os == TargetOs.linux && t.env == TargetEnv.gnu)

/-- Modelled from the spec: a target's platform and backend both
support the per-call read/write behavioral flags (`RWF_*`) exactly
when the direct backend is in use (it targets the linux family, whose
kernel provides `preadv2`/`pwritev2`), or when the system-library
backend is the 64-bit GNU library on linux (§4.7). -/
def supportsReadWriteFlags (t : Target) : Bool :=
  t.backend == Backend.linuxRaw ||
    (t.backend == Backend.libc && t.pointerWidth == 64 &&
      t.os == TargetOs.linux && t.env == TargetEnv.gnu)

/-- The `preadv2` entry of the compiled interface: present (`some`)
only when its `cfg` guard holds, entirely absent (`none`) otherwise —
not a no-op stub. -/
def preadv2Iface (t : Target) :
    Option (FdState → List Nat → Nat → Nat → Except Nat (Nat × FdState)) :=
  if preadv2Compiled t then some (fun s lens off _flags => preadv s lens off)
  else none

/-- The `pwritev2` entry of the compiled interface: present (`some`)
only when its `cfg` guard holds, entirely absent (`none`) otherwise. -/
def pwritev2Iface (t : Target) :
    Option (FdState → List (List Nat) → Nat → Nat → Except Nat (Nat × FdState)) :=
  if pwritev2Compiled t then some (fun s bufs off _flags => pwritev s bufs off)
  else none

/-- C7: `preadv2` and `pwritev2` are present in the compiled
interface exactly on those build targets whose platform and backend
both support the per-call read/write flags, and on every other target
the two functions are entirely absent (`none`), not no-op stubs. -/
theorem c7_preadv2_pwritev2_presence (t : Target) :
    ((preadv2Iface t).isSome = supportsReadWriteFlags t) ∧
    ((pwritev2Iface t).isSome = supportsReadWriteFlags t) ∧
    (supportsReadWriteFlags t = false →
      preadv2Iface t = none ∧ pwritev2Iface t = none) := by
  have h1 : preadv2Compiled t = supportsReadWriteFlags t := rfl
  have h2 : pwritev2Compiled t = supportsReadWriteFlags t := rfl
  refine ⟨?_, ?_, fun hn => ⟨?_, ?_⟩⟩ <;>
    · simp only [preadv2Iface, pwritev2Iface, h1, h2, *]
      cases hb : supportsReadWriteFlags t <;> simp_all

/-- Witness for C7 at two concrete targets: a 64-bit GNU/linux libc
target has both functions, a macOS libc target has neither. -/
theorem c7_preadv2_pwritev2_presence_witness :
    ((preadv2Iface ⟨.libc, .linux, .gnu, 64⟩).isSome =
      supportsReadWriteFlags ⟨.libc, .linux, .gnu, 64⟩) ∧
    (preadv2Iface ⟨.libc, .macos, .other, 64⟩ = none ∧
      pwritev2Iface ⟨.libc, .macos, .other, 64⟩ = none) :=
  ⟨(c7_preadv2_pwritev2_presence ⟨.libc, .linux, .gnu, 64⟩).1,
   (c7_preadv2_pwritev2_presence ⟨.libc, .macos, .other, 64⟩).2.2 rfl⟩

/-! ## Terminal introspection -/

/-- Modelled from the spec: the backend `isatty` query
(`imp::syscalls::isatty`, absent from the sources at hand).  The
platform query either determines whether the descriptor is a terminal
or fails with a raw error code; the operation folds any failure into
`false`, so the facade's `isatty` is a plain boolean with no error
path (§4.6). -/
def isatty (query : Except Nat Bool) : Bool :=
  match query with
  | .ok b => b
  | .error _ => false

/-- C8: `isatty` returns a plain boolean with no error path: a
successful platform query is returned as is, and every platform query
failure is folded into `false` rather than surfaced as an error. -/
theorem c8_isatty_folds_errors_to_false :
    (∀ b, isatty (.ok b) = b) ∧ (∀ e, isatty (.error e) = false) :=
  ⟨fun _ => rfl, fun _ => rfl⟩

end Rustix
